import Mathlib

/-!
Verification of the firefly-ethconnect event-stream delivery engine and the
ABI-to-Swagger converter, against the repository's specification.

The event-stream engine (`eventstream.go`) is not present in the sources;
only its test suite (`internal/kldevents/eventstream_test.go`) is.  The
definitions for that engine are therefore modelled from the specification
(sections 3, 4 and 8), with the test suite as the authority on concrete
observable values such as error strings.  The ABI-to-Swagger converter
(`internal/kldopenapi/abi2swagger.go`) is present and embedded from its
source.

Durations are modelled in integer nanoseconds, as Go's `time.Duration`
stores them; the exponential backoff factor is modelled as a ratio of two
naturals (`bnum / bden`), so `1.1` is `11 / 10` and `2.0` is `2 / 1`.
-/

namespace EthConnect

/-- Nanoseconds in a millisecond. -/
def nsPerMs : Nat := 1000000

/-- Nanoseconds in a second. -/
def nsPerSec : Nat := 1000000000

/-- Error-handling policy of a stream (spec section 3, `errorHandling`). -/
inductive Policy where
  | block
  | skip
deriving DecidableEq, Repr

/-- Outcome of one inner retry cycle of the dispatcher. -/
inductive CycleStatus where
  | acked
  | exhausted
  | running
deriving DecidableEq, Repr

/-- Result of one inner retry cycle: status, index of the next attempt
(equals the total number of attempts made so far), number of attempts that
actually issued an HTTP POST (the URL guard passed), and the total time in
nanoseconds spent sleeping between attempts. -/
structure CycleRes where
  status : CycleStatus
  attempts : Nat
  httpReqs : Nat
  slept : Nat
deriving DecidableEq, Repr

/-- Overall dispatcher result status: `acked` after a 2xx response,
`skipped` after the `skip` policy dropped the batch, `retrying` while the
loop is still going (fuel exhausted in the model). -/
inductive DStatus where
  | acked
  | skipped
  | retrying
deriving DecidableEq, Repr

/-- Overall dispatcher result. -/
structure DispatchRes where
  status : DStatus
  attempts : Nat
  httpReqs : Nat
  slept : Nat
deriving DecidableEq, Repr

/-- A status code is a success iff it is 2xx (spec section 4.2: "2xx -> ack"). -/
def is2xx (status : Nat) : Bool := 200 ≤ status && status < 300

/-- Modelled from the spec: `eventstream.go` is missing; spec section 4.2,
inner retry loop of the Action Dispatcher for one retry budget.  `guard i`
tells whether the URL guard passes for attempt `i` (on guard failure the
attempt fails without issuing an HTTP request), `resp i` whether the peer
answers attempt `i` with a 2xx.  On attempt failure the loop stops once the
cumulative retry time has reached `timeout` (checked before sleeping, as
forced by scenario S4 where `retryTimeoutSec` is absent, hence `0`, and the
hook fires within milliseconds); otherwise it sleeps the current `delay`
and the next delay is `min (delay * backoff) timeout`.  `fuel` bounds the
number of attempts in the model; running out of fuel yields `running`. -/
def retryCycle (guard resp : Nat → Bool) (timeout bnum bden : Nat) :
    Nat → Nat → Nat → Nat → Nat → CycleRes
  | 0, i, h, _, cum => ⟨.running, i, h, cum⟩
  | fuel + 1, i, h, delay, cum =>
    let h' := h + (if guard i then 1 else 0)
    if guard i && resp i then ⟨.acked, i + 1, h', cum⟩
    else if timeout ≤ cum then ⟨.exhausted, i + 1, h', cum⟩
    else retryCycle guard resp timeout bnum bden fuel (i + 1) h'
      (min (delay * bnum / bden) timeout) (cum + delay)

/-- Modelled from the spec: `eventstream.go` is missing; spec section 4.2,
outer loop of the Action Dispatcher.  When a retry budget is exhausted the
`skip` policy returns `skipped` (the batch is dropped, completion hooks
still fire) and the `block` policy sleeps `blockedDelay` and restarts the
inner loop with the delay reset; `block` never drops a batch.  `cycles`
bounds the number of budget cycles in the model. -/
def dispatchLoop (guard resp : Nat → Bool) (policy : Policy)
    (timeout initDelay bnum bden blockedDelay : Nat) (cycleFuel : Nat) :
    Nat → Nat → Nat → Nat → DispatchRes
  | 0, i, h, slept => ⟨.retrying, i, h, slept⟩
  | cycles + 1, i, h, slept =>
    let r := retryCycle guard resp timeout bnum bden cycleFuel i h initDelay 0
    match r.status with
    | .acked => ⟨.acked, r.attempts, r.httpReqs, slept + r.slept⟩
    | .running => ⟨.retrying, r.attempts, r.httpReqs, slept + r.slept⟩
    | .exhausted =>
      match policy with
      | .skip => ⟨.skipped, r.attempts, r.httpReqs, slept + r.slept⟩
      | .block =>
        dispatchLoop guard resp policy timeout initDelay bnum bden blockedDelay
          cycleFuel cycles r.attempts r.httpReqs (slept + r.slept + blockedDelay)

/-- Modelled from the spec: deliver one batch (spec section 4.2,
`dispatch(batch)`), starting from attempt 0 with no time spent. -/
def dispatch (guard resp : Nat → Bool) (policy : Policy)
    (timeout initDelay bnum bden blockedDelay : Nat) (cycleFuel cycles : Nat) :
    DispatchRes :=
  dispatchLoop guard resp policy timeout initDelay bnum bden blockedDelay
    cycleFuel cycles 0 0 0

/-- Modelled from the spec: the completion hooks of a batch fire exactly
when the dispatcher has finished with it, either acknowledged after a 2xx
(spec sections 4.2 and 4.6) or dropped by the `skip` policy; they never
fire while the dispatcher is still retrying. -/
def hooksFire (r : DispatchRes) : Bool :=
  match r.status with
  | .acked => true
  | .skipped => true
  | .retrying => false

/-- The completion hooks fired for a dispatched batch: all of its events,
in batch order, once the dispatcher has finished with it; none before
(spec section 4.6). -/
def firedHooks (batch : List Nat) (r : DispatchRes) : List Nat :=
  if hooksFire r then batch else []

/-- Peer of scenario S5: responds 404, 500, 503, 504, then 200 (the test
server repeats the final status from then on). -/
def peerS5 (i : Nat) : Nat :=
  match i with
  | 0 => 404
  | 1 => 500
  | 2 => 503
  | 3 => 504
  | _ => 200

/-! ## URL parsing and the URL guard (spec section 4.1) -/

/-- Split a character list at the first occurrence of `"://"`, returning the
part before it (the scheme) and the part after it. -/
def splitScheme : List Char → Option (List Char × List Char)
  | [] => none
  | ':' :: '/' :: '/' :: rest => some ([], rest)
  | c :: rest => (splitScheme rest).map (fun p => (c :: p.1, p.2))

/-- Modelled from the spec: `eventstream.go` is missing; Go's `url.Parse` as
used by stream validation and the URL guard.  Returns `(scheme, hostport)`.
A URL whose first character is a colon fails to parse (Go reports "missing
protocol scheme"; the test suite uses `":badurl"` as the unparseable URL);
a string without `"://"` parses as a relative URL with empty scheme and
host. -/
def parseURL (s : String) : Option (String × String) :=
  match s.data with
  | ':' :: _ => none
  | l =>
    match splitScheme l with
    | none => some ("", "")
    | some (scheme, rest) => some (⟨scheme⟩, ⟨rest.takeWhile (fun c => c ≠ '/')⟩)

/-- A resolved IP address: IPv4 as four octets, IPv6 as its sixteen bytes. -/
inductive IPAddr where
  | v4 (a b c d : Nat)
  | v6 (bytes : List Nat)
deriving DecidableEq, Repr

/-- Loopback: `127.0.0.0/8` or `::1`. -/
def IPAddr.isLoopback : IPAddr → Bool
  | .v4 a _ _ _ => a == 127
  | .v6 bs => bs == (List.replicate 15 0 ++ [1])

/-- Link-local: `169.254.0.0/16` or `fe80::/10`. -/
def IPAddr.isLinkLocal : IPAddr → Bool
  | .v4 a b _ _ => a == 169 && b == 254
  | .v6 (b0 :: b1 :: _) => b0 == 0xfe && b1 / 64 == 2
  | .v6 _ => false

/-- Private (RFC1918): `10.0.0.0/8`, `172.16.0.0/12`, `192.168.0.0/16`. -/
def IPAddr.isPrivateRFC1918 : IPAddr → Bool
  | .v4 a b _ _ => a == 10 || (a == 172 && (16 ≤ b && b ≤ 31)) || (a == 192 && b == 168)
  | .v6 _ => false

/-- Unique-local: `fc00::/7`. -/
def IPAddr.isUniqueLocal : IPAddr → Bool
  | .v6 (b0 :: _) => b0 / 2 == 126
  | _ => false

/-- An address the guard refuses when private IPs are not allowed
(spec section 4.1). -/
def IPAddr.isBlockedCategory (ip : IPAddr) : Bool :=
  ip.isLoopback || ip.isLinkLocal || ip.isPrivateRFC1918 || ip.isUniqueLocal

/-- Drop a `:port` suffix from a `host:port` string. -/
def hostOf (hostport : String) : String :=
  ⟨hostport.data.takeWhile (fun c => c ≠ ':')⟩

/-- Modelled from the spec: `eventstream.go` is missing; spec section 4.1,
the URL guard run before every dispatch attempt.  The URL must parse with
scheme `http` or `https` and a non-empty host; the host must resolve
(`dns` returns `none` on resolution failure, which feeds into the
dispatcher policy as a per-attempt error); and unless `allowPrivateIPs` is
set, no resolved address may be loopback, link-local, private or
unique-local. -/
def urlGuard (allowPrivateIPs : Bool) (dns : String → Option (List IPAddr))
    (url : String) : Bool :=
  match parseURL url with
  | none => false
  | some (scheme, hostport) =>
    if !(scheme == "http" || scheme == "https") then false
    else if hostport == "" then false
    else
      match dns (hostOf hostport) with
      | none => false
      | some ips => allowPrivateIPs || ips.all (fun ip => !ip.isBlockedCategory)

/-! ## Stream construction and validation (spec sections 3 and 4.5) -/

/-- Hard ceiling on `batchSize` (spec section 3: design constant,
recommended 1000). -/
def MaxBatchSize : Nat := 1000

/-- The webhook action configuration (`webhookAction` in the tests). -/
structure webhookAction where
  url : String := ""
deriving DecidableEq, Repr

/-- The stream specification (`StreamInfo` in the tests); Go zero values
are the field defaults.  `webhook` is a pointer in Go, hence an `Option`. -/
structure StreamInfo where
  id : String := ""
  type : String := ""
  webhook : Option webhookAction := none
  batchSize : Nat := 0
  batchTimeoutMS : Nat := 0
  errorHandling : String := ""
  retryTimeoutSec : Nat := 0
  blockedRetryDelaySec : Nat := 0
deriving DecidableEq, Repr

/-- ASCII lowercasing, as Go's `strings.ToLower` on the action type. -/
def toLowerStr (s : String) : String := ⟨s.data.map Char.toLower⟩

/-- Modelled from the spec: `eventstream.go` is missing; spec section 4.5,
construction-time validation (`newEventStream` in the tests).  The error
strings are the ones the test suite asserts.  An `Except.error` result
means the stream is never started.  On success the returned spec has the
defaults applied: `batchSize` zero becomes 1 and is clamped to
`MaxBatchSize`; a missing `errorHandling` means `block`; the action type
is canonicalized to lowercase. -/
def newEventStream (spec? : Option StreamInfo) : Except String StreamInfo :=
  match spec? with
  | none => .error "No action specified"
  | some spec =>
    if toLowerStr spec.type ≠ "webhook" then
      .error ("Unknown action type '" ++ spec.type ++ "'")
    else
      match spec.webhook with
      | none => .error "Must specify webhook.url for action type 'webhook'"
      | some wh =>
        match parseURL wh.url with
        | none => .error "Invalid URL in webhook action"
        | some _ =>
          .ok { spec with
            type := "webhook"
            batchSize :=
              if spec.batchSize = 0 then 1
              else if MaxBatchSize < spec.batchSize then MaxBatchSize
              else spec.batchSize
            errorHandling :=
              if toLowerStr spec.errorHandling = "skip" then "skip" else "block" }

/-! ## Batch assembler (spec section 4.3) -/

/-- Modelled from the spec: `eventstream.go` is missing; spec section 4.3,
`add(event)`: append the event to the growing batch; when the batch
reaches `batchSize` it is flushed immediately (returned as the second
component) and the state resets. -/
def addEvent {α : Type} (batchSize : Nat) (cur : List α) (e : α) :
    List α × Option (List α) :=
  let cur' := cur ++ [e]
  if cur'.length = batchSize then ([], some cur') else (cur', none)

/-- Modelled from the spec: the processor feeding a sequence of intake
events to the assembler (spec section 4.4); returns the final partial
batch and the list of batches flushed on reaching `batchSize`, in flush
order. -/
def feedEvents {α : Type} (batchSize : Nat) :
    List α → List α → List α × List (List α)
  | cur, [] => (cur, [])
  | cur, e :: rest =>
    let r := addEvent batchSize cur e
    let rec' := feedEvents batchSize r.1 rest
    (rec'.1, r.2.toList ++ rec'.2)

/-- Modelled from the spec: `onTimerFire()` (spec section 4.3): flush the
current batch if it is non-empty. -/
def onTimerFire {α : Type} (cur : List α) : List α × List (List α) :=
  if cur.isEmpty then (cur, []) else ([], [cur])

/-- Modelled from the spec: the batches the webhook receives when the
events are fed in and the stream then idles past the batch timeout: the
size-triggered flushes followed by the timer flush of the remainder. -/
def runBatching {α : Type} (batchSize : Nat) (events : List α) :
    List (List α) :=
  let fed := feedEvents batchSize [] events
  fed.2 ++ (onTimerFire fed.1).2

/-! ## Backpressure and the in-flight counter (spec sections 3 and 4.4) -/

/-- One observable action on a stream: `accept` is a `handleEvent` call,
`pump` the processor moving one intake event into the dispatcher (with
`batchSize` 1 every event is its own batch), `ok200` the peer finally
answering the outstanding request with a 2xx, which fires the batch's
completion hook. -/
inductive StreamOp where
  | accept
  | pump
  | ok200
deriving DecidableEq, Repr

/-- Modelled from the spec: the runtime counters of a stream (spec
section 3): `intake` is the number of queued events not yet handed to the
dispatcher, `dispatching` whether the dispatcher is mid-delivery,
`accepted` the number of records accepted by `handleEvent`, `fired` the
number of completion hooks fired, `inFlight` the atomic counter
incremented by `handleEvent` and decremented when a hook fires. -/
structure MiniStream where
  intake : Nat
  dispatching : Bool
  accepted : Nat
  fired : Nat
  inFlight : Nat
deriving DecidableEq, Repr

/-- The freshly started stream. -/
def MiniStream.init : MiniStream := ⟨0, false, 0, 0, 0⟩

/-- Modelled from the spec: effect of one observable action.  `handleEvent`
queues the record and increments `inFlight`; the processor hands one event
to the idle dispatcher; a 2xx response ends the delivery and fires the
hook, decrementing `inFlight`. -/
def stepOp (s : MiniStream) : StreamOp → MiniStream
  | .accept =>
    { s with intake := s.intake + 1, accepted := s.accepted + 1,
             inFlight := s.inFlight + 1 }
  | .pump =>
    if !s.dispatching && 0 < s.intake then
      { s with intake := s.intake - 1, dispatching := true }
    else s
  | .ok200 =>
    if s.dispatching then
      { s with dispatching := false, fired := s.fired + 1,
               inFlight := s.inFlight - 1 }
    else s

/-- Run a sequence of observable actions from a state. -/
def runOps (s : MiniStream) (ops : List StreamOp) : MiniStream :=
  ops.foldl stepOp s

/-- Modelled from the spec: `blocked` is true iff intake is full (its
capacity equals `batchSize`) or the dispatcher is mid-delivery under the
`block` policy (spec section 3). -/
def isBlocked (policy : Policy) (capacity : Nat) (s : MiniStream) : Bool :=
  capacity ≤ s.intake || (s.dispatching && policy == Policy.block)

/-! ## Stop protocol (spec section 4.5) -/

/-- Modelled from the spec: the state relevant to shutdown: the partial
batch still waiting on its batch timer, the batches flushed to the
dispatcher but not yet picked up, the batch the dispatcher is delivering,
and the two terminal flags. -/
structure StopState where
  current : List Nat
  handoff : List (List Nat)
  dispatching : Option (List Nat)
  processorDone : Bool
  dispatcherDone : Bool
deriving DecidableEq, Repr

/-- Modelled from the spec: one cooperative step of the stop protocol
(spec section 4.5).  The processor observes the stop signal at its select
point, flushes the partial batch to the handoff, closes it and exits; the
dispatcher then finishes its in-flight batch (fail-fast, abandoning
retries between attempts), drains the handoff and exits. -/
def stepStop (s : StopState) : StopState :=
  if !s.processorDone then
    { s with current := [],
             handoff := s.handoff ++ (if s.current.isEmpty then [] else [s.current]),
             processorDone := true }
  else
    match s.dispatching with
    | some _ => { s with dispatching := none }
    | none =>
      match s.handoff with
      | [] => { s with dispatcherDone := true }
      | b :: rest => { s with handoff := rest, dispatching := some b }

end EthConnect

namespace kldopenapi

/-!
Embedding of `internal/kldopenapi/abi2swagger.go` (present in the
sources).  The external collaborators are modelled shallowly: a parsed
`gjson.Result` is a lookup from the key sequence fed to `Get` to the value
`String()` returns; go-ethereum's `abi.Type` carries its kind, size and
string rendering as data, with `Elem` folded into a dedicated constructor;
Go maps are association lists with overwriting insertion. -/

/-- A parsed `gjson` document: `Get` pushes a key, `String()` reads the
value at the accumulated key path. -/
def GJ : Type := List String → String

/-- `gjson.Result.Get`. -/
def gjGet (r : GJ) (key : String) : GJ := fun path => r (key :: path)

/-- `gjson.Result.String()`. -/
def gjString (r : GJ) : String := r []

/-- Overwriting insertion into a Go map modelled as an association list. -/
def mapInsert {β : Type} (m : List (String × β)) (k : String) (v : β) :
    List (String × β) :=
  if m.any (fun p => p.1 = k) then
    m.map (fun p => if p.1 = k then (k, v) else p)
  else m ++ [(k, v)]

/-- The kinds of go-ethereum's `abi.Type` (field `T`) that
`mapTypeToSchema` distinguishes. -/
inductive ABITypeKind where
  | intTy
  | uintTy
  | boolTy
  | addressTy
  | stringTy
  | bytesTy
  | fixedBytesTy
  | sliceTy
  | arrayTy
  | otherTy
deriving DecidableEq, Repr

/-- go-ethereum's `abi.Type`: kind `T`, `Size`, the rendering `String()`
returns, and for slices and arrays the element type `Elem`. -/
inductive ABIType where
  | base (t : ABITypeKind) (size : Nat) (str : String)
  | collection (t : ABITypeKind) (size : Nat) (str : String) (elem : ABIType)
deriving DecidableEq, Repr

/-- `abi.Type.T`. -/
def ABIType.t : ABIType → ABITypeKind
  | .base t _ _ => t
  | .collection t _ _ _ => t

/-- `abi.Type.Size`. -/
def ABIType.size : ABIType → Nat
  | .base _ s _ => s
  | .collection _ s _ _ => s

/-- `abi.Type.String()`. -/
def ABIType.str : ABIType → String
  | .base _ _ s => s
  | .collection _ _ s _ => s

/-- go-ethereum's `abi.Argument` (the fields the converter reads). -/
structure ABIArgument where
  name : String
  type : ABIType
deriving DecidableEq, Repr

/-- go-ethereum's `abi.Method` (the fields the converter reads). -/
structure ABIMethod where
  name : String
  inputs : List ABIArgument
  outputs : List ABIArgument
deriving DecidableEq, Repr

/-- go-ethereum's `abi.ABI` (the fields the converter reads); `methods`
lists the values of the `Methods` map. -/
structure ABIDef where
  ctor : ABIMethod
  methods : List ABIMethod
deriving DecidableEq, Repr

/-- A Swagger schema (`spec.Schema`, the fields the converter writes);
`ref` models `SchemaProps.Ref` as the reference string. -/
structure SchemaM where
  description : String := ""
  typ : List String := []
  pattern : String := ""
  ref : String := ""
  properties : List (String × SchemaM) := []
  items : Option SchemaM := none
deriving Repr

/-- The zero value of `spec.Schema`. -/
def SchemaM.empty : SchemaM :=
  { description := "", typ := [], pattern := "", ref := ""
    properties := [], items := none }

/-- A Swagger parameter (`spec.Parameter`); the Go struct embeds
`ParamProps`, `SimpleSchema` and `Refable`, flattened here.  `defaultVal`
models `SimpleSchema.Default`, only ever set to the boolean `true`. -/
structure ParameterM where
  description : String := ""
  name : String := ""
  loc : String := ""
  required : Bool := false
  allowEmptyValue : Bool := false
  typ : String := ""
  defaultVal : Option Bool := none
  ref : String := ""
  schemaRef : String := ""
deriving DecidableEq, Repr

/-- A Swagger response (`spec.Response`). -/
structure ResponseM where
  description : String := ""
  schemaRef : String := ""
deriving DecidableEq, Repr

/-- A Swagger responses object (`spec.Responses`); the converter only ever
fills the `200` entry of `StatusCodeResponses` and `Default`. -/
structure ResponsesM where
  status200 : ResponseM
  defaultResponse : ResponseM
deriving DecidableEq, Repr

/-- A Swagger operation (`spec.Operation`). -/
structure OperationM where
  summary : String := ""
  description : String := ""
  consumes : List String := []
  produces : List String := []
  responses : Option ResponsesM := none
  parameters : List ParameterM := []
deriving DecidableEq, Repr

/-- A Swagger path item (`spec.PathItem`). -/
structure PathItemM where
  getOp : Option OperationM := none
  postOp : Option OperationM := none
deriving DecidableEq, Repr

/-- `spec.Info`. -/
structure InfoM where
  version : String
  title : String
  description : String
deriving DecidableEq, Repr

/-- `spec.Swagger` (the fields `convert` fills). -/
structure SwaggerM where
  swagger : String
  info : InfoM
  host : String
  schemes : List String
  basePath : String
  paths : List (String × PathItemM)
  definitions : List (String × SchemaM)
  parameters : List (String × ParameterM)
deriving Repr

/-- `ABI2Swagger` (abi2swagger.go lines 29-33). -/
structure ABI2Swagger where
  externalHost : String
  externalSchemes : List String
  externalRootPath : String
deriving DecidableEq, Repr

/-- `NewABI2Swagger` (abi2swagger.go lines 36-46): stores the three
values; an empty scheme list becomes `["http", "https"]`. -/
def NewABI2Swagger (externalHost externalRootPath : String)
    (externalSchemes : List String) : ABI2Swagger :=
  let c : ABI2Swagger :=
    { externalHost := externalHost
      externalRootPath := externalRootPath
      externalSchemes := externalSchemes }
  if c.externalSchemes.length = 0 then
    { c with externalSchemes := ["http", "https"] }
  else c

/-- Go's `url.QueryEscape` restricted to ASCII: alphanumerics and
`-_.~` unescaped, space to `+`, every other byte to `%XX`. -/
def queryEscape (s : String) : String :=
  let hexDigit := fun (n : Nat) =>
    if n < 10 then Char.ofNat ('0'.toNat + n) else Char.ofNat ('A'.toNat + n - 10)
  let escape := fun (c : Char) =>
    if c.isAlphanum || c = '-' || c = '_' || c = '.' || c = '~' then [c]
    else if c = ' ' then ['+']
    else ['%', hexDigit (c.toNat / 16), hexDigit (c.toNat % 16)]
  ⟨(s.data.map escape).flatten⟩

/-- `getCommonParameters` (abi2swagger.go lines 150-225). -/
def getCommonParameters : List (String × ParameterM) :=
  let params : List (String × ParameterM) := []
  let params := mapInsert params "fromParam"
    { description := "The 'from' address - 'x-kaleido-from' header can also be used"
      name := "kld-from", loc := "query", required := false, typ := "string" }
  let params := mapInsert params "valueParam"
    { description := "Value to send with the transaction - 'x-kaleido-value' header can also be used"
      name := "kld-value", loc := "query", required := false
      allowEmptyValue := true, typ := "integer" }
  let params := mapInsert params "gasParam"
    { description := "Gas to send with the transaction (auto-calculated if not set) - 'x-kaleido-gas' header can also be used"
      name := "kld-gas", loc := "query", required := false
      allowEmptyValue := true, typ := "integer" }
  let params := mapInsert params "gaspriceParam"
    { description := "Gas Price offered - 'x-kaleido-gasprice' header can also be used"
      name := "kld-gasprice", loc := "query", required := false
      allowEmptyValue := true, typ := "integer" }
  let params := mapInsert params "syncParam"
    { description := "Block the HTTP request until the tx is mined (does not store the receipt) - 'x-kaleido-sync' header can also be used"
      name := "kld-sync", loc := "query", required := false
      allowEmptyValue := true, typ := "boolean", defaultVal := some true }
  let params := mapInsert params "callParam"
    { description := "Perform a read-only call with the same parameters that would be used to invoke, and return result - 'x-kaleido-call' header can also be used"
      name := "kld-call", loc := "query", required := false
      allowEmptyValue := true, typ := "boolean" }
  params

/-- `addCommonParams` (abi2swagger.go lines 227-266): append the shared
ref parameters; the sync and call parameters only on POST. -/
def addCommonParams (op : OperationM) (isPOST : Bool) (_isConstructor : Bool) :
    OperationM :=
  let ps := op.parameters
    ++ [{ ref := "#/parameters/fromParam" }]
    ++ [{ ref := "#/parameters/valueParam" }]
    ++ [{ ref := "#/parameters/gasParam" }]
    ++ [{ ref := "#/parameters/gaspriceParam" }]
  let ps := if isPOST then
      ps ++ [{ ref := "#/parameters/syncParam" }]
         ++ [{ ref := "#/parameters/callParam" }]
    else ps
  { op with parameters := ps }

/-- `buildResponses` (abi2swagger.go lines 358-396). -/
def buildResponses (outputSchema : String) (_method : ABIMethod)
    (devdocs : GJ) : ResponsesM :=
  let errorResponse : ResponseM :=
    { description := "error", schemaRef := "#/definitions/error" }
  let desc := gjString (gjGet devdocs "return")
  let desc := if desc = "" then "successful response" else desc
  { status200 :=
      { description := desc
        schemaRef := "#/definitions/" ++ outputSchema }
    defaultResponse := errorResponse }

/-- `buildGETPath` (abi2swagger.go lines 268-312). -/
def buildGETPath (outputSchema : String) (inst : Bool) (method : ABIMethod)
    (methodSig : String) (devdocs : GJ) : OperationM :=
  let parameters : List ParameterM :=
    if !inst then
      [{ description := "The contract address", name := "address"
         loc := "path", required := true, typ := "string" }]
    else []
  let parameters := parameters ++ method.inputs.map (fun input =>
    let desc := gjString (gjGet devdocs ("params." ++ input.name))
    let varDetails := if desc ≠ "" then ": " ++ desc else desc
    { description := input.type.str ++ varDetails, name := input.name
      loc := "query", required := true, typ := "string" })
  let op : OperationM :=
    { summary := methodSig
      description := gjString (gjGet devdocs "details")
      produces := ["application/json"]
      responses := some (buildResponses outputSchema method devdocs)
      parameters := parameters }
  addCommonParams op false false

/-- `buildPOSTPath` (abi2swagger.go lines 314-356). -/
def buildPOSTPath (inputSchema outputSchema : String) (inst ctor : Bool)
    (method : ABIMethod) (methodSig : String) (devdocs : GJ) : OperationM :=
  let parameters : List ParameterM :=
    if !inst && !ctor then
      [{ description := "The contract address", name := "address"
         loc := "path", required := true, typ := "string" }]
    else []
  let parameters := parameters ++
    [{ name := "body", loc := "body", required := true
       schemaRef := "#/definitions/" ++ inputSchema }]
  let op : OperationM :=
    { summary := methodSig
      description := gjString (gjGet devdocs "details")
      consumes := ["application/json", "application/x-yaml"]
      produces := ["application/json"]
      responses := some (buildResponses outputSchema method devdocs)
      parameters := parameters }
  addCommonParams op true ctor

/-- `mapTypeToSchema` (abi2swagger.go lines 439-474): fill in the JSON
type, pattern and items of a schema from the ABI type. -/
def mapTypeToSchema (s : SchemaM) (t : ABIType) (isReturn : Bool) : SchemaM :=
  match t with
  | .base kind size _ =>
    match kind with
    | .intTy => { s with typ := ["string"], pattern := "^-?[0-9]+$" }
    | .uintTy => { s with typ := ["string"], pattern := "^-?[0-9]+$" }
    | .boolTy => { s with typ := ["boolean"] }
    | .addressTy => { s with typ := ["string"], pattern := "^(0x)?[a-fA-F0-9]{40}$" }
    | .stringTy => { s with typ := ["string"] }
    | .bytesTy => { s with typ := ["string"], pattern := "^(0x)?[a-fA-F0-9]+$" }
    | .fixedBytesTy =>
      { s with typ := ["string"]
               pattern := "^(0x)?[a-fA-F0-9]\x7b" ++ toString (size * 2) ++ "\x7d$" }
    | _ => s
  | .collection kind _ _ elem =>
    match kind with
    | .sliceTy =>
      { s with typ := ["array"], items := some (mapTypeToSchema SchemaM.empty elem isReturn) }
    | .arrayTy =>
      { s with typ := ["array"], items := some (mapTypeToSchema SchemaM.empty elem isReturn) }
    | _ => s

/-- `mapArgToSchema` (abi2swagger.go lines 421-437). -/
def mapArgToSchema (arg : ABIArgument) (isReturn : Bool) (desc : String) :
    SchemaM :=
  let varDetails := if desc ≠ "" then ": " ++ desc else desc
  let s : SchemaM :=
    { SchemaM.empty with description := arg.type.str ++ varDetails, typ := ["string"] }
  mapTypeToSchema s arg.type isReturn

/-- `buildArgumentsDefinition` (abi2swagger.go lines 398-419): register
the schema for a method's inputs or outputs; unnamed arguments become
`output`, `output1`, ... -/
def buildArgumentsDefinition (defs : List (String × SchemaM)) (name : String)
    (args : List ABIArgument) (isReturn : Bool) (devdocs : GJ) :
    List (String × SchemaM) :=
  let props := (args.enum.foldl (fun acc p =>
    let idx := p.1
    let arg := p.2
    let argName :=
      if arg.name = "" then
        "output" ++ (if idx ≠ 0 then toString idx else "")
      else arg.name
    let argDocs := gjGet devdocs ("params." ++ arg.name)
    mapInsert acc argName (mapArgToSchema arg isReturn (gjString argDocs)))
    ([] : List (String × SchemaM)))
  mapInsert defs name { SchemaM.empty with properties := props }

/-- `buildMethodDefinitionsAndPath` (abi2swagger.go lines 112-148).  Note
the second `ReplaceAll` in the source starts again from `methodSig`, so
the escaping of `(` is discarded, exactly as the code does. -/
def buildMethodDefinitionsAndPath (inst : Bool)
    (defs : List (String × SchemaM)) (paths : List (String × PathItemM))
    (name : String) (method : ABIMethod) (devdocs : GJ) :
    List (String × SchemaM) × List (String × PathItemM) :=
  let ctor := name = "constructor"
  let path :=
    if !ctor then (if inst then "/" ++ name else "/{address}/" ++ name)
    else "/"
  let methodSig :=
    if !ctor then
      name ++ "(" ++ String.intercalate ","
        (method.inputs.map (fun input => input.type.str)) ++ ")"
    else name
  let _search := methodSig.replace "(" "\\("
  let search := methodSig.replace ")" "\\)"
  let methodDocs := gjGet devdocs search
  let inputSchema := queryEscape name ++ "_inputs"
  let outputSchema := queryEscape name ++ "_outputs"
  let defs := buildArgumentsDefinition defs outputSchema method.outputs true methodDocs
  let pathItem : PathItemM :=
    { getOp :=
        if name ≠ "constructor" then
          some (buildGETPath outputSchema inst method methodSig methodDocs)
        else none }
  let defs := buildArgumentsDefinition defs inputSchema method.inputs false methodDocs
  let pathItem := { pathItem with
    postOp := some (buildPOSTPath inputSchema outputSchema inst ctor method methodSig methodDocs) }
  (defs, mapInsert paths path pathItem)

/-- `buildDefinitionsAndPaths` (abi2swagger.go lines 90-110). -/
def buildDefinitionsAndPaths (inst : Bool) (abi : ABIDef) (devdocs : GJ) :
    List (String × SchemaM) × List (String × PathItemM) :=
  let methodsDocs := gjGet devdocs "methods"
  let dp : List (String × SchemaM) × List (String × PathItemM) := ([], [])
  let dp :=
    if !inst then
      buildMethodDefinitionsAndPath inst dp.1 dp.2 "constructor" abi.ctor methodsDocs
    else dp
  let dp := abi.methods.foldl (fun acc method =>
    buildMethodDefinitionsAndPath inst acc.1 acc.2 method.name method methodsDocs) dp
  let errProp : SchemaM :=
    { SchemaM.empty with description := "Error message", typ := ["string"] }
  let errSchema : SchemaM :=
    { SchemaM.empty with properties := mapInsert [] "error" errProp }
  (mapInsert dp.1 "error" errSchema, dp.2)

/-- `convert` (abi2swagger.go lines 59-88).  `devdocs` is the already
parsed devdocs JSON (the source calls the external `gjson.Parse` on the
raw string). -/
def convert (c : ABI2Swagger) (basePath name : String) (abi : ABIDef)
    (devdocs : GJ) (inst : Bool) : SwaggerM :=
  let basePath := c.externalRootPath ++ basePath
  let dp := buildDefinitionsAndPaths inst abi devdocs
  { swagger := "2.0"
    info :=
      { version := "1.0", title := name
        description := gjString (gjGet devdocs "details") }
    host := c.externalHost
    schemes := c.externalSchemes
    basePath := basePath
    paths := dp.2
    definitions := dp.1
    parameters := getCommonParameters }

/-- `Gen4Instance` (abi2swagger.go lines 49-51). -/
def Gen4Instance (c : ABI2Swagger) (basePath name : String) (abi : ABIDef)
    (devdocs : GJ) : SwaggerM :=
  convert c basePath name abi devdocs true

/-- `Gen4Factory` (abi2swagger.go lines 54-56). -/
def Gen4Factory (c : ABI2Swagger) (basePath name : String) (abi : ABIDef)
    (devdocs : GJ) : SwaggerM :=
  convert c basePath name abi devdocs false

end kldopenapi

/-! # Theorems -/

namespace EthConnect

/-- Feeding events through the assembler loses nothing and keeps intake
order: the flushed batches concatenated with the final partial batch are
exactly the starting batch followed by the fed events. -/
theorem feedEvents_flatten {α : Type} (batchSize : Nat) :
    ∀ (events cur : List α),
      (feedEvents batchSize cur events).2.flatten ++ (feedEvents batchSize cur events).1 =
        cur ++ events := by
  intro events
  induction events with
  | nil => intro cur; simp [feedEvents]
  | cons e rest ih =>
    intro cur
    simp only [feedEvents, addEvent]
    by_cases hfl : (cur ++ [e]).length = batchSize
    · simp only [hfl, if_pos rfl]
      simp [ih []]
    · simp only [if_neg hfl]
      simp [ih (cur ++ [e])]

/-- Every batch flushed on the size trigger has exactly `batchSize`
events, and the partial batch stays strictly below `batchSize`. -/
theorem feedEvents_sizes {α : Type} (batchSize : Nat) :
    ∀ (events cur : List α), cur.length < batchSize →
      (∀ b ∈ (feedEvents batchSize cur events).2, b.length = batchSize) ∧
      (feedEvents batchSize cur events).1.length < batchSize := by
  intro events
  induction events with
  | nil => intro cur hc; simp [feedEvents, hc]
  | cons e rest ih =>
    intro cur hc
    simp only [feedEvents, addEvent]
    by_cases hfl : (cur ++ [e]).length = batchSize
    · simp only [hfl, if_pos rfl]
      have h0 : ([] : List α).length < batchSize := by
        simp at hfl ⊢; omega
      refine ⟨?_, (ih [] h0).2⟩
      intro b hb
      simp at hb
      rcases hb with hb | hb
      · rw [hb]; exact hfl
      · exact (ih [] h0).1 b hb
    · simp only [if_neg hfl]
      have hlt : (cur ++ [e]).length < batchSize := by
        simp at hfl ⊢; omega
      simpa using ih (cur ++ [e]) hlt

/-- Claim C3: the batch assembler flushes on both triggers: with
`batchSize` 10 and a batch timeout, feeding 3 events then idling yields
exactly one webhook request carrying the 3-element array; feeding 19
events yields exactly two requests, the first of size 10 flushed
immediately by the size trigger (before the timer), the second of size 9
flushed by the timer, with intake order preserved; in general the
delivered batches concatenate to the fed events in intake order. -/
theorem batch_assembler_flush_triggers :
    (runBatching 10 (List.range 3) = [[0, 1, 2]]) ∧
    (runBatching 10 (List.range 19) =
      [List.range 10, [10, 11, 12, 13, 14, 15, 16, 17, 18]]) ∧
    ((feedEvents 10 ([] : List Nat) (List.range 19)).2 = [List.range 10]) ∧
    ((List.range 10).length = 10 ∧
      ([10, 11, 12, 13, 14, 15, 16, 17, 18] : List Nat).length = 9) ∧
    (∀ (bs : Nat) (events : List Nat),
      (runBatching bs events).flatten = events) := by
  refine ⟨by decide, by decide, by decide, by decide, ?_⟩
  intro bs events
  have h := feedEvents_flatten bs events []
  simp only [List.nil_append] at h
  simp only [runBatching, onTimerFire]
  by_cases he : (feedEvents bs ([] : List Nat) events).1.isEmpty
  · have he' : (feedEvents bs ([] : List Nat) events).1 = [] := by
      simpa using he
    rw [if_pos he]
    rw [he'] at h
    simpa using h
  · rw [if_neg he]
    simpa using h

/-- Claim C6: after validation `batchSize` never exceeds `MaxBatchSize`:
every successfully validated spec has `batchSize ≤ MaxBatchSize`, a
configured `batchSize` of 10000000 is clamped to exactly `MaxBatchSize`,
and no delivered batch ever exceeds `batchSize` elements. -/
theorem batch_size_clamped :
    (∀ (spec : StreamInfo) (v : StreamInfo),
      newEventStream (some spec) = .ok v → v.batchSize ≤ MaxBatchSize) ∧
    ((newEventStream (some { type := "WEBHOOK", webhook := some { url := "http://127.0.0.1:3000" }, batchSize := 10000000 })).map (fun v => v.batchSize) =
      .ok MaxBatchSize) ∧
    (∀ (bs : Nat) (events : List Nat), 0 < bs →
      ∀ b ∈ runBatching bs events, b.length ≤ bs) := by
  refine ⟨?_, by rfl, ?_⟩
  · intro spec v hok
    simp only [newEventStream] at hok
    split at hok
    · simp at hok
    · split at hok
      · simp at hok
      · split at hok
        · simp at hok
        · simp only [Except.ok.injEq] at hok
          subst hok
          simp only []
          split
          · decide
          · split
            · exact Nat.le_refl _
            · omega
  · intro bs events hbs b hb
    have hs := feedEvents_sizes bs events [] (by simpa using hbs)
    simp only [runBatching, onTimerFire] at hb
    by_cases he : (feedEvents bs ([] : List Nat) events).1.isEmpty
    · rw [if_pos he] at hb
      simp at hb
      exact le_of_eq (hs.1 b hb)
    · rw [if_neg he] at hb
      simp at hb
      rcases hb with hb | hb
      · exact le_of_eq (hs.1 b hb)
      · rw [hb]; exact le_of_lt hs.2

/-- Witness for `batch_size_clamped` at a concrete input. -/
theorem batch_size_clamped_witness :
    ([0] : List Nat).length ≤ 1 :=
  batch_size_clamped.2.2 1 [0, 1, 2] (by decide) [0] (by decide)

/-- Counterexample to claim C5 as stated: the construction error strings
are capitalized, and the unknown-action-type error embeds the offending
type, so a nil spec yields "No action specified" rather than
"no action specified" and type "random" yields
"Unknown action type 'random'" rather than "unknown action type". -/
theorem validation_error_strings_counterexample :
    newEventStream none = .error "No action specified" ∧
    newEventStream (some { type := "random" }) =
      .error "Unknown action type 'random'" ∧
    "No action specified" ≠ "no action specified" ∧
    "Unknown action type 'random'" ≠ "unknown action type" ∧
    "Must specify webhook.url for action type 'webhook'" ≠
      "must specify webhook.url for action type 'webhook'" ∧
    "Invalid URL in webhook action" ≠ "invalid URL in webhook action" :=
  ⟨rfl, rfl, by decide, by decide, by decide, by decide⟩

/-- Claim C5 (amended): stream construction rejects exactly the invalid
configurations: a nil spec yields "No action specified"; a type other
than `webhook` (case-insensitively, so "WEBHOOK" is accepted) yields
"Unknown action type '&lt;type&gt;'" naming the type; a missing webhook object
yields "Must specify webhook.url for action type 'webhook'"; an
unparseable URL (such as ":badurl") yields "Invalid URL in webhook
action"; in each error case no stream value is produced, so the stream is
not started. -/
theorem stream_validation_amended :
    (newEventStream none = .error "No action specified") ∧
    (∀ spec : StreamInfo, toLowerStr spec.type ≠ "webhook" →
      newEventStream (some spec) =
        .error ("Unknown action type '" ++ spec.type ++ "'")) ∧
    (∀ spec : StreamInfo, toLowerStr spec.type = "webhook" →
      spec.webhook = none →
      newEventStream (some spec) =
        .error "Must specify webhook.url for action type 'webhook'") ∧
    (∀ (spec : StreamInfo) (wh : webhookAction), spec.webhook = some wh →
      toLowerStr spec.type = "webhook" → parseURL wh.url = none →
      newEventStream (some spec) = .error "Invalid URL in webhook action") ∧
    (parseURL ":badurl" = none) ∧
    (∃ v, newEventStream (some { type := "WEBHOOK", webhook := some { url := "http://127.0.0.1:3000" } }) = .ok v) := by
  refine ⟨rfl, ?_, ?_, ?_, rfl, ⟨_, rfl⟩⟩
  · intro spec h
    simp only [newEventStream]
    rw [if_pos h]
  · intro spec h1 h2
    simp only [newEventStream]
    rw [if_neg (not_not_intro h1), h2]
  · intro spec wh hwh h1 hu
    simp only [newEventStream]
    rw [if_neg (not_not_intro h1), hwh]
    simp [hu]

/-- Witness for `stream_validation_amended` at a concrete input. -/
theorem stream_validation_amended_witness :
    newEventStream (some { type := "random" }) =
      .error ("Unknown action type '" ++ "random" ++ "'") :=
  stream_validation_amended.2.1 { type := "random" } (by decide)

/-- One step preserves the counter invariant: `inFlight` plus fired hooks
equals accepted records, and `inFlight` counts the queued events plus the
batch being dispatched. -/
theorem stepOp_invariant (s : MiniStream) (op : StreamOp)
    (h1 : s.inFlight + s.fired = s.accepted)
    (h2 : s.inFlight = s.intake + (if s.dispatching then 1 else 0)) :
    (stepOp s op).inFlight + (stepOp s op).fired = (stepOp s op).accepted ∧
    (stepOp s op).inFlight =
      (stepOp s op).intake + (if (stepOp s op).dispatching then 1 else 0) := by
  cases hd : s.dispatching with
  | false =>
    rw [hd] at h2; simp at h2
    cases op with
    | accept => simp [stepOp, hd]; omega
    | pump =>
      simp only [stepOp, hd, Bool.not_false, Bool.true_and]
      by_cases hi : 0 < s.intake
      · simp [hi, hd]; omega
      · simp [hi, hd]; omega
    | ok200 => simp [stepOp, hd]; omega
  | true =>
    rw [hd] at h2; simp at h2
    cases op with
    | accept => simp [stepOp, hd]; omega
    | pump => simp [stepOp, hd]; omega
    | ok200 => simp [stepOp, hd]; omega

/-- The counter invariant holds after any run of observable actions. -/
theorem runOps_invariant :
    ∀ (ops : List StreamOp) (s : MiniStream),
      s.inFlight + s.fired = s.accepted →
      s.inFlight = s.intake + (if s.dispatching then 1 else 0) →
      (runOps s ops).inFlight + (runOps s ops).fired = (runOps s ops).accepted ∧
      (runOps s ops).inFlight =
        (runOps s ops).intake + (if (runOps s ops).dispatching then 1 else 0) := by
  intro ops
  induction ops with
  | nil => intro s h1 h2; exact ⟨h1, h2⟩
  | cons op rest ih =>
    intro s h1 h2
    have h := stepOp_invariant s op h1 h2
    simpa [runOps, List.foldl_cons] using ih (stepOp s op) h.1 h.2

/-- Claim C7: at every reachable point `inFlight` equals records accepted
by `handleEvent` minus completion hooks fired; in the backpressure
scenario S6 (batchSize 1, block policy, peer never accepting), after 11
`handleEvent` calls `inFlight` is 11 and `isBlocked()` is true, and after
the 11 successful responses drain the backlog `inFlight` is 0 and
`isBlocked()` is false; the fresh stream is not blocked. -/
theorem inflight_counter_invariant :
    (∀ ops : List StreamOp,
      (runOps MiniStream.init ops).inFlight + (runOps MiniStream.init ops).fired =
        (runOps MiniStream.init ops).accepted ∧
      (runOps MiniStream.init ops).inFlight =
        (runOps MiniStream.init ops).accepted - (runOps MiniStream.init ops).fired) ∧
    (isBlocked .block 1 MiniStream.init = false) ∧
    (runOps MiniStream.init (List.replicate 11 .accept ++ [.pump]) =
      ⟨10, true, 11, 0, 11⟩ ∧
      (⟨10, true, 11, 0, 11⟩ : MiniStream).inFlight = 11 ∧
      isBlocked .block 1 ⟨10, true, 11, 0, 11⟩ = true) ∧
    (runOps MiniStream.init (List.replicate 11 .accept ++ [.pump] ++
        (List.replicate 11 [StreamOp.ok200, StreamOp.pump]).flatten) =
      ⟨0, false, 11, 11, 0⟩ ∧
      (⟨0, false, 11, 11, 0⟩ : MiniStream).inFlight = 0 ∧
      isBlocked .block 1 ⟨0, false, 11, 11, 0⟩ = false) := by
  refine ⟨?_, by decide, by decide, by decide⟩
  intro ops
  have h := runOps_invariant ops MiniStream.init rfl rfl
  exact ⟨h.1, by omega⟩

/-- Once the processor has exited and the dispatcher holds no batch, the
dispatcher drains the handoff and sets its terminal flag in
`2 * length + 1` steps. -/
theorem stepStop_drain :
    ∀ (hf : List (List Nat)) (s : StopState),
      s.processorDone = true → s.dispatching = none → s.handoff = hf →
      (stepStop^[2 * hf.length + 1] s).processorDone = true ∧
      (stepStop^[2 * hf.length + 1] s).dispatcherDone = true := by
  intro hf
  induction hf with
  | nil =>
    intro s h1 h2 h3
    have e1 : stepStop s = { s with dispatcherDone := true } := by
      simp [stepStop, h1, h2, h3]
    simp only [List.length_nil, Nat.mul_zero, Nat.zero_add,
      Function.iterate_one, e1]
    exact ⟨h1, trivial⟩
  | cons b rest ih =>
    intro s h1 h2 h3
    have e1 : stepStop s = { s with handoff := rest, dispatching := some b } := by
      simp [stepStop, h1, h2, h3]
    have e2 : stepStop (stepStop s) =
        { s with handoff := rest, dispatching := none } := by
      rw [e1]; simp [stepStop, h1]
    have hlen : 2 * (b :: rest).length + 1 = (2 * rest.length + 1) + 2 := by
      simp [List.length_cons]; omega
    rw [hlen, Function.iterate_add_apply]
    have e3 : stepStop^[2] s = { s with handoff := rest, dispatching := none } := by
      rw [show (2 : Nat) = 1 + 1 from rfl, Function.iterate_add_apply]
      simp only [Function.iterate_one]
      exact e2
    rw [e3]
    exact ih _ (by simpa using h1) (by simp) (by simp)

/-- Claim C8: after `stop()` both terminal flags `processorDone` and
`dispatcherDone` become true within a bounded number of cooperative steps
(at most `2 * pending + 5`, the wall-clock bound of the scenario being
abstracted into step counting), from any state, including one where a
partial batch is still waiting on its batch timeout; in scenario S9 (one
event in the partial batch) both flags are true after 4 steps. -/
theorem stop_sets_done_flags :
    (∀ s : StopState, ∃ n, n ≤ 2 * s.handoff.length + 5 ∧
      (stepStop^[n] s).processorDone = true ∧
      (stepStop^[n] s).dispatcherDone = true) ∧
    (stepStop^[4] ⟨[1], [], none, false, false⟩ =
      ⟨[], [], none, true, true⟩) := by
  refine ⟨?_, by decide⟩
  intro s
  by_cases hp : s.processorDone = true
  · cases hd : s.dispatching with
    | none =>
      obtain ⟨d1, d2⟩ := stepStop_drain s.handoff s hp hd rfl
      exact ⟨2 * s.handoff.length + 1, by omega, d1, d2⟩
    | some b =>
      have e1 : stepStop s = { s with dispatching := none } := by
        simp [stepStop, hp, hd]
      obtain ⟨d1, d2⟩ := stepStop_drain s.handoff (stepStop s)
        (by simp [e1, hp]) (by simp [e1]) (by simp [e1])
      refine ⟨(2 * s.handoff.length + 1) + 1, by omega, ?_, ?_⟩
      · rw [Function.iterate_add_apply, Function.iterate_one]; exact d1
      · rw [Function.iterate_add_apply, Function.iterate_one]; exact d2
  · have hp' : s.processorDone = false := by simpa using hp
    have e1 : stepStop s =
        { s with current := [],
                 handoff := s.handoff ++ (if s.current.isEmpty then [] else [s.current]),
                 processorDone := true } := by
      simp [stepStop, hp']
    have hlen : (stepStop s).handoff.length ≤ s.handoff.length + 1 := by
      rw [e1]; simp; split <;> simp
    cases hd : s.dispatching with
    | none =>
      obtain ⟨d1, d2⟩ := stepStop_drain (stepStop s).handoff (stepStop s)
        (by simp [e1]) (by simp [e1, hd]) rfl
      refine ⟨(2 * (stepStop s).handoff.length + 1) + 1, by omega, ?_, ?_⟩
      · rw [Function.iterate_add_apply, Function.iterate_one]; exact d1
      · rw [Function.iterate_add_apply, Function.iterate_one]; exact d2
    | some b =>
      have hd1 : (stepStop s).processorDone = true := by simp [e1]
      have hd2 : (stepStop s).dispatching = some b := by simp [e1, hd]
      have e2 : stepStop (stepStop s) = { stepStop s with dispatching := none } := by
        set t := stepStop s with ht
        simp [stepStop, hd1, hd2]
      obtain ⟨d1, d2⟩ := stepStop_drain (stepStop s).handoff (stepStop (stepStop s))
        (by simp [e2, hd1]) (by simp [e2]) (by simp [e2])
      refine ⟨(2 * (stepStop s).handoff.length + 1) + 1 + 1, by omega, ?_, ?_⟩
      · rw [Function.iterate_add_apply, Function.iterate_one,
          Function.iterate_add_apply, Function.iterate_one]
        exact d1
      · rw [Function.iterate_add_apply, Function.iterate_one,
          Function.iterate_add_apply, Function.iterate_one]
        exact d2

end EthConnect

namespace kldopenapi

/-- Claim C10: `NewABI2Swagger` uses the default scheme list
`["http", "https"]` exactly when the given list is empty and the given
list unchanged otherwise, and every Swagger document the converter
generates (instance or factory flavor) carries exactly the converter's
scheme list in its `Schemes` field. -/
theorem swagger_schemes_exact :
    (∀ (host root : String) (schemes : List String),
      (NewABI2Swagger host root schemes).externalSchemes =
        if schemes.length = 0 then ["http", "https"] else schemes) ∧
    (∀ (c : ABI2Swagger) (basePath name : String) (abi : ABIDef) (devdocs : GJ),
      (Gen4Instance c basePath name abi devdocs).schemes = c.externalSchemes ∧
      (Gen4Factory c basePath name abi devdocs).schemes = c.externalSchemes) ∧
    (∀ (host root : String) (schemes : List String) (basePath name : String)
        (abi : ABIDef) (devdocs : GJ),
      (Gen4Instance (NewABI2Swagger host root schemes) basePath name abi devdocs).schemes =
        (if schemes.length = 0 then ["http", "https"] else schemes) ∧
      (Gen4Factory (NewABI2Swagger host root schemes) basePath name abi devdocs).schemes =
        (if schemes.length = 0 then ["http", "https"] else schemes)) := by
  have hnew : ∀ (host root : String) (schemes : List String),
      (NewABI2Swagger host root schemes).externalSchemes =
        if schemes.length = 0 then ["http", "https"] else schemes := by
    intro host root schemes
    simp only [NewABI2Swagger]
    split
    · rfl
    · rfl
  refine ⟨hnew, fun c b n a d => ⟨rfl, rfl⟩, ?_⟩
  intro host root schemes basePath name abi devdocs
  exact ⟨hnew host root schemes, hnew host root schemes⟩

end kldopenapi

namespace EthConnect

/-- A cycle that acknowledged did so on a successful last attempt, all
earlier attempts of the cycle having failed. -/
theorem retryCycle_acked_spec (guard resp : Nat → Bool) (t bn bd : Nat) :
    ∀ (fuel i h delay cum : Nat) (r : CycleRes),
      retryCycle guard resp t bn bd fuel i h delay cum = r →
      r.status = .acked →
      i < r.attempts ∧ (guard (r.attempts - 1) && resp (r.attempts - 1)) = true ∧
      (∀ j, i ≤ j → j + 1 < r.attempts → (guard j && resp j) = false) := by
  intro fuel
  induction fuel with
  | zero =>
    intro i h delay cum r hr hs
    simp only [retryCycle] at hr
    rw [← hr] at hs
    simp at hs
  | succ fuel ih =>
    intro i h delay cum r hr hs
    simp only [retryCycle] at hr
    split at hr
    · next hg =>
      rw [← hr]
      refine ⟨by dsimp only; omega, by simpa using hg, ?_⟩
      intro j hij hj
      simp at hj
      omega
    · split at hr
      · next ht =>
        rw [← hr] at hs
        simp at hs
      · next hg ht =>
        obtain ⟨h1, h2, h3⟩ := ih (i + 1) _ _ _ r hr hs
        refine ⟨by omega, h2, ?_⟩
        intro j hij hj
        rcases Nat.lt_or_ge j (i + 1) with hji | hji
        · have hji' : j = i := by omega
          subst hji'
          simpa using hg
        · exact h3 j hji hj

/-- A cycle that exhausted its budget made at least one attempt and every
attempt of the cycle failed. -/
theorem retryCycle_exhausted_spec (guard resp : Nat → Bool) (t bn bd : Nat) :
    ∀ (fuel i h delay cum : Nat) (r : CycleRes),
      retryCycle guard resp t bn bd fuel i h delay cum = r →
      r.status = .exhausted →
      i < r.attempts ∧
      (∀ j, i ≤ j → j < r.attempts → (guard j && resp j) = false) := by
  intro fuel
  induction fuel with
  | zero =>
    intro i h delay cum r hr hs
    simp only [retryCycle] at hr
    rw [← hr] at hs
    simp at hs
  | succ fuel ih =>
    intro i h delay cum r hr hs
    simp only [retryCycle] at hr
    split at hr
    · next hg =>
      rw [← hr] at hs
      simp at hs
    · split at hr
      · next hg ht =>
        rw [← hr]
        refine ⟨by dsimp only; omega, ?_⟩
        intro j hij hj
        simp at hj
        have hji : j = i := by omega
        subst hji
        simpa using hg
      · next hg ht =>
        obtain ⟨h1, h3⟩ := ih (i + 1) _ _ _ r hr hs
        refine ⟨by omega, ?_⟩
        intro j hij hj
        rcases Nat.lt_or_ge j (i + 1) with hji | hji
        · have hji' : j = i := by omega
          subst hji'
          simpa using hg
        · exact h3 j hji hj

/-- The attempt counter never decreases across a cycle. -/
theorem retryCycle_attempts_le (guard resp : Nat → Bool) (t bn bd : Nat) :
    ∀ (fuel i h delay cum : Nat),
      i ≤ (retryCycle guard resp t bn bd fuel i h delay cum).attempts := by
  intro fuel
  induction fuel with
  | zero => intro i h delay cum; simp [retryCycle]
  | succ fuel ih =>
    intro i h delay cum
    simp only [retryCycle]
    split
    · simp
    · split
      · simp
      · exact le_trans (by omega) (ih (i + 1) _ _ _)

/-- Under the `block` policy the dispatcher never drops a batch, and when
it acknowledges, the last attempt received a 2xx while every earlier
attempt failed. -/
theorem dispatchLoop_block_spec (guard resp : Nat → Bool)
    (t idl bn bd bdel cf : Nat) :
    ∀ (cycles i h slept : Nat) (r : DispatchRes),
      dispatchLoop guard resp .block t idl bn bd bdel cf cycles i h slept = r →
      r.status ≠ .skipped ∧
      (r.status = .acked →
        i < r.attempts ∧
        (guard (r.attempts - 1) && resp (r.attempts - 1)) = true ∧
        ∀ j, i ≤ j → j + 1 < r.attempts → (guard j && resp j) = false) := by
  intro cycles
  induction cycles with
  | zero =>
    intro i h slept r hr
    simp only [dispatchLoop] at hr
    rw [← hr]
    refine ⟨by simp, ?_⟩
    intro hs
    simp at hs
  | succ cycles ih =>
    intro i h slept r hr
    simp only [dispatchLoop] at hr
    split at hr
    · next heq =>
      rw [← hr]
      refine ⟨by simp, ?_⟩
      intro _
      obtain ⟨h1, h2, h3⟩ :=
        retryCycle_acked_spec guard resp t bn bd cf i h idl 0 _ rfl heq
      exact ⟨h1, h2, h3⟩
    · next heq =>
      rw [← hr]
      refine ⟨by simp, ?_⟩
      intro hs
      simp at hs
    · next heq =>
      obtain ⟨hns, hack⟩ := ih _ _ _ r hr
      refine ⟨hns, ?_⟩
      intro hs
      obtain ⟨h1, h2, h3⟩ := hack hs
      obtain ⟨e1, e3⟩ :=
        retryCycle_exhausted_spec guard resp t bn bd cf i h idl 0 _ rfl heq
      refine ⟨by omega, h2, ?_⟩
      intro j hij hj
      rcases Nat.lt_or_ge j (retryCycle guard resp t bn bd cf i h idl 0).attempts
        with hji | hji
      · exact e3 j hij hji
      · exact h3 j hji hj

/-- With a zero retry budget and every attempt failing, each cycle of the
blocked dispatcher makes exactly one attempt and the loop never
finishes: after `cycles` cycles it is still retrying, having made
`cycles` attempts, `gv` HTTP requests per attempt, and slept
`blockedDelay` per cycle. -/
theorem dispatchLoop_allfail_t0 (g resp : Nat → Bool)
    (idl bn bd bdel cf gv : Nat)
    (hall : ∀ j, (g j && resp j) = false)
    (hgv : ∀ j, (if g j then 1 else 0) = gv) :
    ∀ (cycles i h slept : Nat),
      dispatchLoop g resp .block 0 idl bn bd bdel (cf + 1) cycles i h slept =
        ⟨.retrying, i + cycles, h + cycles * gv, slept + cycles * bdel⟩ := by
  intro cycles
  induction cycles with
  | zero => intro i h slept; simp [dispatchLoop]
  | succ n ih =>
    intro i h slept
    have hc : retryCycle g resp 0 bn bd (cf + 1) i h idl 0 =
        ⟨.exhausted, i + 1, h + (if g i then 1 else 0), 0⟩ := by
      simp [retryCycle, hall i]
    simp only [dispatchLoop, hc]
    rw [hgv i]
    rw [ih (i + 1) (h + gv) (slept + 0 + bdel)]
    simp only [DispatchRes.mk.injEq, Nat.succ_mul]
    refine ⟨trivial, by omega, by omega, by omega⟩

/-- Claim C1: under the `block` policy a completion hook fires only after
a 2xx webhook response for the batch containing the event; with a peer
that always answers 404 (scenario S3: zero retry budget,
`blockedRetryDelaySec` 1), every request arrives (one per cycle, so the
first arrives as soon as one cycle runs) yet the dispatcher stays
retrying forever and the completion hook never fires. -/
theorem block_policy_hook_only_after_2xx :
    (∀ (guard resp : Nat → Bool) (t idl bn bd bdel cf cy : Nat)
        (batch : List Nat) (e : Nat),
      e ∈ firedHooks batch (dispatch guard resp .block t idl bn bd bdel cf cy) →
      e ∈ batch ∧
      (dispatch guard resp .block t idl bn bd bdel cf cy).status = .acked ∧
      resp ((dispatch guard resp .block t idl bn bd bdel cf cy).attempts - 1) = true) ∧
    (∀ cf cy : Nat,
      dispatch (fun _ => true) (fun _ => is2xx 404) .block 0 nsPerSec 2 1 nsPerSec
          (cf + 1) (cy + 1) =
        ⟨.retrying, cy + 1, cy + 1, (cy + 1) * nsPerSec⟩ ∧
      hooksFire (⟨.retrying, cy + 1, cy + 1, (cy + 1) * nsPerSec⟩ : DispatchRes) = false ∧
      1 ≤ cy + 1) := by
  constructor
  · intro guard resp t idl bn bd bdel cf cy batch e he
    obtain ⟨hns, hack⟩ :=
      dispatchLoop_block_spec guard resp t idl bn bd bdel cf cy 0 0 0 _ rfl
    simp only [firedHooks] at he
    split at he
    · next hf =>
      refine ⟨he, ?_⟩
      rcases hst : (dispatch guard resp .block t idl bn bd bdel cf cy).status with
        _ | _ | _
      · obtain ⟨_, h2, _⟩ := hack hst
        exact ⟨rfl, ((Bool.and_eq_true _ _).mp h2).2⟩
      · exact absurd hst hns
      · rw [show (dispatch guard resp .block t idl bn bd bdel cf cy) =
          dispatchLoop guard resp .block t idl bn bd bdel cf cy 0 0 0 from rfl]
          at hf
        simp only [hooksFire] at hf
        rw [show (dispatchLoop guard resp .block t idl bn bd bdel cf cy 0 0 0).status =
          DStatus.retrying from hst] at hf
        simp at hf
    · simp at he
  · intro cf cy
    refine ⟨?_, rfl, by omega⟩
    have := dispatchLoop_allfail_t0 (fun _ => true) (fun _ => is2xx 404)
      nsPerSec 2 1 nsPerSec cf 1
      (fun j => by show (true && is2xx 404) = false; decide)
      (fun j => by show (if true = true then 1 else 0) = 1; decide)
      (cy + 1) 0 0 0
    simpa [dispatch] using this

/-- Witness for `block_policy_hook_only_after_2xx` at a concrete input
where the peer answers 200 at once. -/
theorem block_policy_hook_only_after_2xx_witness :
    0 ∈ [0] ∧
    (dispatch (fun _ => true) (fun _ => is2xx 200) .block 0 nsPerSec 2 1 nsPerSec 1 1).status = .acked ∧
    is2xx 200 = true :=
  block_policy_hook_only_after_2xx.1 (fun _ => true) (fun _ => is2xx 200)
    0 nsPerSec 2 1 nsPerSec 1 1 [0] 0 (by decide)

/-- A cycle terminates once enough fuel is available: if every sleep adds
at least `m` and the budget `t` is at most `cum + fuel * m`, the cycle
with `fuel + 1` attempts of fuel does not run out. -/
theorem retryCycle_not_running (guard resp : Nat → Bool) (t bn bd m : Nat)
    (hbd : 0 < bd) (hbn : bd ≤ bn) (hmt : m ≤ t) :
    ∀ (fuel i h delay cum : Nat), m ≤ delay → t ≤ cum + fuel * m →
      (retryCycle guard resp t bn bd (fuel + 1) i h delay cum).status ≠ .running := by
  intro fuel
  induction fuel with
  | zero =>
    intro i h delay cum hm hcum
    simp only [retryCycle]
    split
    · simp
    · split
      · simp
      · next hg ht =>
        omega
  | succ fuel ih =>
    intro i h delay cum hm hcum
    simp only [retryCycle]
    split
    · simp
    · split
      · simp
      · next hg ht =>
        have hdiv : delay ≤ delay * bn / bd := by
          rw [Nat.le_div_iff_mul_le hbd]
          exact Nat.mul_le_mul_left delay hbn
        have hm' : m ≤ min (delay * bn / bd) t := le_min (le_trans hm hdiv) hmt
        have hcum' : t ≤ (cum + delay) + fuel * m := by
          have hsm : (fuel + 1) * m = fuel * m + m := by ring
          omega
        exact ih (i + 1) _ _ _ hm' hcum'

/-- The total sleep time of a cycle never exceeds the retry budget plus
one final sleep, each sleep being at most `M`. -/
theorem retryCycle_slept_le (guard resp : Nat → Bool) (t bn bd M : Nat)
    (hMt : t ≤ M) :
    ∀ (fuel i h delay cum : Nat), delay ≤ M → cum ≤ t + M →
      (retryCycle guard resp t bn bd fuel i h delay cum).slept ≤ t + M := by
  intro fuel
  induction fuel with
  | zero => intro i h delay cum hd hc; simpa [retryCycle] using hc
  | succ fuel ih =>
    intro i h delay cum hd hc
    simp only [retryCycle]
    split
    · simpa using hc
    · split
      · simpa using hc
      · next hg ht =>
        have hd' : min (delay * bn / bd) t ≤ M := le_trans (min_le_right _ _) hMt
        have hc' : cum + delay ≤ t + M := by omega
        exact ih (i + 1) _ _ _ hd' hc'

/-- Claim C2: under the `skip` policy the completion hook fires for every
event regardless of peer behavior, within the retry budget plus one final
backoff sleep (at most `max initialRetryDelay retryTimeoutSec`); in
scenario S4 (always-404 peer, zero retry budget) the webhook receives
exactly one request, the batch is skipped with no sleep at all and the
hook fires. -/
theorem skip_policy_hook_within_budget :
    (∀ (guard resp : Nat → Bool) (t idl bn bd bdel : Nat),
      0 < idl → 0 < bd → bd ≤ bn →
      hooksFire (dispatch guard resp .skip t idl bn bd bdel (t + 1) 1) = true ∧
      (dispatch guard resp .skip t idl bn bd bdel (t + 1) 1).slept ≤
        t + max idl t) ∧
    (dispatch (fun _ => true) (fun _ => is2xx 404) .skip 0 nsPerSec 2 1 nsPerSec 1 1 =
      ⟨.skipped, 1, 1, 0⟩ ∧
      hooksFire (⟨.skipped, 1, 1, 0⟩ : DispatchRes) = true) := by
  constructor
  · intro guard resp t idl bn bd bdel hidl hbd hbn
    have hm : min idl t ≤ t := min_le_right _ _
    have hfuel : t ≤ 0 + t * min idl t := by
      rcases Nat.eq_zero_or_pos t with h0 | h0
      · omega
      · have h1 : 1 ≤ min idl t := le_min hidl h0
        have h2 : t * 1 ≤ t * min idl t := Nat.mul_le_mul_left t h1
        omega
    have hnr :=
      retryCycle_not_running guard resp t bn bd (min idl t) hbd hbn hm
        t 0 0 idl 0 (min_le_left _ _) (by omega)
    have hsl :=
      retryCycle_slept_le guard resp t bn bd (max idl t) (le_max_right _ _)
        (t + 1) 0 0 idl 0 (le_max_left _ _) (by omega)
    rcases hst : (retryCycle guard resp t bn bd (t + 1) 0 0 idl 0).status with
      _ | _ | _
    · constructor
      · simp [dispatch, dispatchLoop, hst, hooksFire]
      · simpa [dispatch, dispatchLoop, hst] using hsl
    · constructor
      · simp [dispatch, dispatchLoop, hst, hooksFire]
      · simpa [dispatch, dispatchLoop, hst] using hsl
    · exact absurd hst hnr
  · exact ⟨by decide, rfl⟩

/-- Witness for `skip_policy_hook_within_budget` at a concrete input. -/
theorem skip_policy_hook_within_budget_witness :
    hooksFire (dispatch (fun _ => true) (fun _ => is2xx 404) .skip 0 nsPerSec 2 1 nsPerSec (0 + 1) 1) = true ∧
    (dispatch (fun _ => true) (fun _ => is2xx 404) .skip 0 nsPerSec 2 1 nsPerSec (0 + 1) 1).slept ≤
      0 + max nsPerSec 0 :=
  skip_policy_hook_within_budget.1 (fun _ => true) (fun _ => is2xx 404)
    0 nsPerSec 2 1 nsPerSec (by decide) (by decide) (by decide)

/-- Claim C4: the dispatcher retry loop issues one HTTP request per
attempt, on failure computing the next delay as
`min (delay * backoffFactor) retryTimeoutSec` and sleeping the current
delay while the cumulative retry time is below `retryTimeoutSec`
(exhausting the budget otherwise); in scenario S5 (peer answers
404, 500, 503, 504, 200; block policy, budget 1 s, initial delay 1 ms,
backoff 1.1) exactly five requests are made, sleeping a total of
4.641 ms, and the completion hook fires after the fifth (2xx) response;
in general an acknowledged dispatch succeeded on its last attempt and
failed on every earlier one. -/
theorem backoff_retry_five_attempts :
    (dispatch (fun _ => true) (fun i => is2xx (peerS5 i)) .block
        nsPerSec nsPerMs 11 10 nsPerSec 10 3 = ⟨.acked, 5, 5, 4641000⟩ ∧
      hooksFire (⟨.acked, 5, 5, 4641000⟩ : DispatchRes) = true) ∧
    (∀ (guard resp : Nat → Bool) (t bn bd fuel i h delay cum : Nat),
      (guard i && resp i) = false → ¬ t ≤ cum →
      retryCycle guard resp t bn bd (fuel + 1) i h delay cum =
        retryCycle guard resp t bn bd fuel (i + 1)
          (h + (if guard i then 1 else 0)) (min (delay * bn / bd) t)
          (cum + delay)) ∧
    (∀ (guard resp : Nat → Bool) (t bn bd fuel i h delay cum : Nat),
      (guard i && resp i) = false → t ≤ cum →
      retryCycle guard resp t bn bd (fuel + 1) i h delay cum =
        ⟨.exhausted, i + 1, h + (if guard i then 1 else 0), cum⟩) ∧
    (∀ (guard resp : Nat → Bool) (t idl bn bd bdel cf cy : Nat) (r : DispatchRes),
      dispatch guard resp .block t idl bn bd bdel cf cy = r →
      r.status = .acked →
      (guard (r.attempts - 1) && resp (r.attempts - 1)) = true ∧
      ∀ j, j + 1 < r.attempts → (guard j && resp j) = false) := by
  refine ⟨⟨by decide, rfl⟩, ?_, ?_, ?_⟩
  · intro guard resp t bn bd fuel i h delay cum hg ht
    simp [retryCycle, hg, ht]
  · intro guard resp t bn bd fuel i h delay cum hg ht
    simp [retryCycle, hg, ht]
  · intro guard resp t idl bn bd bdel cf cy r hr hs
    obtain ⟨_, hack⟩ :=
      dispatchLoop_block_spec guard resp t idl bn bd bdel cf cy 0 0 0 r hr
    obtain ⟨h1, h2, h3⟩ := hack hs
    exact ⟨h2, fun j hj => h3 j (Nat.zero_le j) hj⟩

/-- Witness for `backoff_retry_five_attempts` at the scenario S5 input. -/
theorem backoff_retry_five_attempts_witness :
    (true && is2xx (peerS5 4)) = true :=
  (backoff_retry_five_attempts.2.2.2 (fun _ => true) (fun i => is2xx (peerS5 i))
    nsPerSec nsPerMs 11 10 nsPerSec 10 3 ⟨.acked, 5, 5, 4641000⟩ (by decide) rfl).1

/-- A dispatcher whose URL guard rejects every attempt never issues an
HTTP request and never acknowledges. -/
theorem retryCycle_guard_false (guard resp : Nat → Bool) (t bn bd : Nat)
    (hg : ∀ j, guard j = false) :
    ∀ (fuel i h delay cum : Nat),
      (retryCycle guard resp t bn bd fuel i h delay cum).status ≠ .acked ∧
      (retryCycle guard resp t bn bd fuel i h delay cum).httpReqs = h := by
  intro fuel
  induction fuel with
  | zero => intro i h delay cum; simp [retryCycle]
  | succ fuel ih =>
    intro i h delay cum
    simp only [retryCycle, hg i]
    split
    · next hgr => simp at hgr
    · split
      · simp
      · simpa using ih (i + 1) h _ _

/-- Lifting `retryCycle_guard_false` through the outer loop: with a
failing guard the dispatcher never acknowledges and issues no HTTP
request, under either policy. -/
theorem dispatchLoop_guard_false (guard resp : Nat → Bool)
    (policy : Policy) (t idl bn bd bdel cf : Nat)
    (hg : ∀ j, guard j = false) :
    ∀ (cycles i h slept : Nat),
      (dispatchLoop guard resp policy t idl bn bd bdel cf cycles i h slept).status ≠ .acked ∧
      (dispatchLoop guard resp policy t idl bn bd bdel cf cycles i h slept).httpReqs = h := by
  intro cycles
  induction cycles with
  | zero => intro i h slept; simp [dispatchLoop]
  | succ cycles ih =>
    intro i h slept
    obtain ⟨hna, hh⟩ := retryCycle_guard_false guard resp t bn bd hg cf i h idl 0
    simp only [dispatchLoop]
    split
    · next heq => exact absurd heq hna
    · next heq => simpa using hh
    · next heq =>
      cases policy with
      | skip => simpa using hh
      | block =>
        rw [hh]
        exact ih _ _ _

/-- Claim C9: URL-guard and DNS failures are per-attempt dispatch
failures fed into the prevailing policy: with `allowPrivateIPs` false and
a URL resolving to loopback 127.0.0.1 under `block` (scenario S7) the
guard rejects, the hook never fires, no HTTP request is issued and the
dispatcher keeps retrying (one attempt per cycle); with the unresolvable
host `fail.invalid` under `skip` (scenario S8) no HTTP request reaches
any peer yet the hook still fires; in general a guard that rejects every
attempt means no acknowledgement and no HTTP request, under any policy. -/
theorem guard_failures_feed_policy :
    (urlGuard false (fun host => if host = "127.0.0.1" then some [IPAddr.v4 127 0 0 1] else none) "http://127.0.0.1:3000" = false) ∧
    (∀ cf cy : Nat,
      dispatch (fun _ => urlGuard false (fun host => if host = "127.0.0.1" then some [IPAddr.v4 127 0 0 1] else none) "http://127.0.0.1:3000")
          (fun _ => is2xx 200) .block 0 nsPerSec 2 1 nsPerSec (cf + 1) cy =
        ⟨.retrying, cy, 0, cy * nsPerSec⟩ ∧
      hooksFire (⟨.retrying, cy, 0, cy * nsPerSec⟩ : DispatchRes) = false) ∧
    (urlGuard false (fun _ => none) "http://fail.invalid" = false) ∧
    (dispatch (fun _ => urlGuard false (fun _ => none) "http://fail.invalid")
        (fun _ => is2xx 200) .skip 0 nsPerSec 2 1 nsPerSec 1 1 =
      ⟨.skipped, 1, 0, 0⟩ ∧
      hooksFire (⟨.skipped, 1, 0, 0⟩ : DispatchRes) = true) ∧
    (∀ (guard resp : Nat → Bool) (policy : Policy)
        (t idl bn bd bdel cf cy : Nat),
      (∀ j, guard j = false) →
      (dispatch guard resp policy t idl bn bd bdel cf cy).status ≠ .acked ∧
      (dispatch guard resp policy t idl bn bd bdel cf cy).httpReqs = 0) := by
  refine ⟨by decide, ?_, by decide, ⟨by decide, rfl⟩, ?_⟩
  · intro cf cy
    refine ⟨?_, rfl⟩
    have := dispatchLoop_allfail_t0
      (fun _ => urlGuard false (fun host => if host = "127.0.0.1" then some [IPAddr.v4 127 0 0 1] else none) "http://127.0.0.1:3000")
      (fun _ => is2xx 200) nsPerSec 2 1 nsPerSec cf 0
      (fun j => by show (urlGuard false (fun host => if host = "127.0.0.1" then some [IPAddr.v4 127 0 0 1] else none) "http://127.0.0.1:3000" && is2xx 200) = false; decide)
      (fun j => by show (if urlGuard false (fun host => if host = "127.0.0.1" then some [IPAddr.v4 127 0 0 1] else none) "http://127.0.0.1:3000" = true then 1 else 0) = 0; decide)
      cy 0 0 0
    simpa [dispatch] using this
  · intro guard resp policy t idl bn bd bdel cf cy hg
    exact dispatchLoop_guard_false guard resp policy t idl bn bd bdel cf hg cy 0 0 0

/-- Witness for `guard_failures_feed_policy` at a concrete input. -/
theorem guard_failures_feed_policy_witness :
    (dispatch (fun _ => false) (fun _ => true) .block 0 1 2 1 0 1 1).status ≠ .acked ∧
    (dispatch (fun _ => false) (fun _ => true) .block 0 1 2 1 0 1 1).httpReqs = 0 :=
  guard_failures_feed_policy.2.2.2.2 (fun _ => false) (fun _ => true) .block
    0 1 2 1 0 1 1 (fun _ => rfl)

end EthConnect

